import Mathlib

/-
Verification of the AEGIS Protocol client-side script
(src/static/js/main.js) against its specification.

The DOM state relevant to the script is embedded shallowly:
an element is a record of the properties the script reads or writes
(CSS class list, href, required flag, value, inline style slots,
containing form, next sibling tag, input type), and the document is a
list of such elements in document order.  Each event handler of the
script becomes a pure function on this state; timers become an explicit
schedule of delays taken from the setTimeout calls in the source.
-/

/-- An element of the page, carrying exactly the properties that
main.js reads or mutates. -/
structure Element where
  classes : List String := []
  href : Option String := none
  required : Bool := false
  value : String := ""
  formId : Option Nat := none
  inputType : Option String := none
  nextSiblingTag : Option String := none
  styleBorderColor : Option String := none
  styleOpacity : Option String := none
  styleTransition : Option String := none
  deriving Repr, DecidableEq

/-- The document: elements in document order. -/
abbrev Dom : Type := List Element

/-- `e.classList.contains c` / membership of `c` in the class attribute. -/
def hasClass (e : Element) (c : String) : Bool := e.classes.contains c

/-- JavaScript `s.trim()`: remove leading and trailing whitespace. -/
def jsTrim (s : String) : String :=
  ⟨((s.data.dropWhile Char.isWhitespace).reverse.dropWhile Char.isWhitespace).reverse⟩

/-- Character-list version of JavaScript's `String.prototype.startsWith`. -/
def charsStartWith : List Char → List Char → Bool
  | [], _ => true
  | _ :: _, [] => false
  | p :: ps, c :: cs => p == c && charsStartWith ps cs

/-- Character-list version of JavaScript's `String.prototype.includes`. -/
def charsInclude (pat : List Char) : List Char → Bool
  | [] => pat.isEmpty
  | c :: cs => charsStartWith pat (c :: cs) || charsInclude pat cs

/-- JavaScript `s.includes(pat)`: substring containment. -/
def js_includes (s pat : String) : Bool := charsInclude pat.data s.data

/-- `DOMTokenList.toggle tok`: the class attribute is an ordered set, so
if the token is present it is removed (all occurrences), otherwise it is
appended at the end. -/
def classListToggle (tok : String) (classes : List String) : List String :=
  if tok ∈ classes then classes.filter (fun c => c != tok) else classes ++ [tok]

/-- `function toggleMobileMenu()` from main.js: find the first `.sidebar`
element (querySelector order) and toggle the class `mobile-open` on it;
if there is none, do nothing. -/
def toggleMobileMenu : Dom → Dom
  | [] => []
  | e :: rest =>
    if hasClass e "sidebar" then
      { e with classes := classListToggle "mobile-open" e.classes } :: rest
    else
      e :: toggleMobileMenu rest

/- ### Form validation (submit handler) -/

/-- Outcome of one run of the submit handler on a form: the post-state of
the form's required fields (in document order), whether `e.preventDefault()`
was called, and the message of the `alert(...)` dialog if one was shown. -/
structure SubmitResult where
  fields : List Element
  prevented : Bool
  alertShown : Option String
  deriving Repr, DecidableEq

/-- One iteration of `requiredFields.forEach` in the submit handler:
`if (!field.value.trim())` paint the border `#ef4444` and clear `isValid`,
else paint it `#e5e7eb` and leave `isValid` alone.  The accumulator is the
styled fields so far together with the current `isValid` flag. -/
def validateStep (acc : List Element × Bool) (field : Element) :
    List Element × Bool :=
  if jsTrim field.value = "" then
    (acc.1 ++ [{ field with styleBorderColor := some "#ef4444" }], false)
  else
    (acc.1 ++ [{ field with styleBorderColor := some "#e5e7eb" }], acc.2)

/-- The submit handler of main.js, given `form.querySelectorAll('[required]')`:
run the `forEach` loop starting from `isValid = true`, then
`if (!isValid) { e.preventDefault(); alert(...); }`. -/
def formSubmitHandler (requiredFields : List Element) : SubmitResult :=
  let r := requiredFields.foldl validateStep ([], true)
  if r.2 then
    { fields := r.1, prevented := false, alertShown := none }
  else
    { fields := r.1, prevented := true,
      alertShown := some "Please fill in all required fields." }

/-- `form.querySelectorAll('[required]')`: the form's children carrying
the required attribute, in document order. -/
def requiredFieldsOf (children : List Element) : List Element :=
  children.filter (fun e => e.required)

/-- A submit event firing on a form whose content is `children`. -/
def submitForm (children : List Element) : SubmitResult :=
  formSubmitHandler (requiredFieldsOf children)

/-- The per-field effect of the submit handler, as a single function:
red border `#ef4444` on a field whose trimmed value is empty,
neutral border `#e5e7eb` otherwise. -/
def styleRequiredField (field : Element) : Element :=
  if jsTrim field.value = "" then
    { field with styleBorderColor := some "#ef4444" }
  else
    { field with styleBorderColor := some "#e5e7eb" }

/- ### Delete-button confirmation -/

/-- The guard in `deleteButtons.forEach`: a click listener is attached to a
button selected by `.btn-danger` only `if (button.href &&
button.href.includes('delete'))` (a missing or empty href is falsy). -/
def deleteListenerAttached (e : Element) : Bool :=
  hasClass e "btn-danger" &&
    (match e.href with
     | some h => !(h == "") && js_includes h "delete"
     | none => false)

/-- Observable outcome of a click: whether the `confirm(...)` dialog was
shown, and whether `e.preventDefault()` was called. -/
structure ClickOutcome where
  confirmShown : Bool
  prevented : Bool
  deriving Repr, DecidableEq

/-- A click on an element, given the user's answer to any confirmation
dialog.  If the delete listener is attached, the handler runs
`if (!confirm(...)) e.preventDefault()`; otherwise this script does
nothing on the click. -/
def clickElement (e : Element) (userConfirms : Bool) : ClickOutcome :=
  if deleteListenerAttached e then
    { confirmShown := true, prevented := !userConfirms }
  else
    { confirmShown := false, prevented := false }

/- ### File-input change handler -/

/-- An entry of `this.files`. -/
structure FileInfo where
  name : String
  deriving Repr, DecidableEq

set_option linter.unusedVariables false in
/-- The change handler attached to every `input[type="file"]`: it computes
the chosen file name and looks at the next sibling, but its `if` body is
empty, so the document is returned unchanged in every case.  (`fileName`
is unused in the source as well, hence the disabled linter.) -/
def fileChangeHandler (files : List FileInfo) (input : Element) (dom : Dom) :
    Dom :=
  let fileName := match files.head? with
    | some f => f.name
    | none => "No file chosen"
  let label := input.nextSiblingTag
  if label = some "SMALL" then
    -- `// File name will be shown elsewhere` : the body is empty
    dom
  else dom

/- ### Alert auto-hide timers -/

/-- Delay of the outer `setTimeout` wrapping the fade (ms). -/
def alertFadeDelayMs : Nat := 5000

/-- Delay of the inner `setTimeout` wrapping `alert.remove()` (ms),
matching the `opacity 0.5s` transition. -/
def alertRemoveDelayMs : Nat := 500

/-- The schedule the script sets up for one alert element:
fade starts after the outer delay, removal fires after the inner delay
on top of that. -/
structure AlertTimeline where
  insertedAt : Nat
  fadeStartAt : Nat
  removedAt : Nat
  deriving Repr, DecidableEq

/-- Timers scheduled for an alert present when `DOMContentLoaded` fires at
time `t0` (ms). -/
def alertAutoHideTimeline (t0 : Nat) : AlertTimeline :=
  { insertedAt := t0
    fadeStartAt := t0 + alertFadeDelayMs
    removedAt := t0 + alertFadeDelayMs + alertRemoveDelayMs }

/-- Effect of the outer timer callback on the alert element:
`alert.style.transition = 'opacity 0.5s'; alert.style.opacity = '0'`. -/
def alertFadeStep (e : Element) : Element :=
  { e with styleTransition := some "opacity 0.5s", styleOpacity := some "0" }

/- ### Unified event model (for the frame property) -/

/-- A DOM event or a timer firing: every entry point of the script.
Indices address the target element within the document list. -/
inductive UiEvent where
  | alertFadeTimer (i : Nat)
  | alertRemoveTimer (i : Nat)
  | formSubmitEvt (fid : Nat)
  | deleteClickEvt (i : Nat) (userConfirms : Bool)
  | fileChangeEvt (i : Nat) (files : List FileInfo)
  | menuToggleEvt
  deriving Repr, DecidableEq

/-- The outer timer of the auto-hide pair firing for the alert at index
`i` (the closure only exists for elements that matched `.alert`). -/
def applyAlertFade : Nat → Dom → Dom
  | _, [] => []
  | 0, e :: rest => (if hasClass e "alert" then alertFadeStep e else e) :: rest
  | n + 1, e :: rest => e :: applyAlertFade n rest

/-- The inner timer firing: `alert.remove()` for the alert at index `i`. -/
def applyAlertRemove : Nat → Dom → Dom
  | _, [] => []
  | 0, e :: rest => if hasClass e "alert" then rest else e :: rest
  | n + 1, e :: rest => e :: applyAlertRemove n rest

/-- Document-wide effect of a submit event on form `fid`: the submit
handler repaints the border of every required field of that form. -/
def applyFormSubmit (fid : Nat) (dom : Dom) : Dom :=
  dom.map (fun e =>
    if e.formId == some fid && e.required then styleRequiredField e else e)

/-- Document-wide effect of a change event on the file input at index `i`. -/
def applyFileChange (i : Nat) (files : List FileInfo) (dom : Dom) : Dom :=
  match dom.get? i with
  | some input => fileChangeHandler files input dom
  | none => dom

/-- The document transition of each event handler of the script.  Clicks
only show dialogs and possibly cancel navigation; they mutate no element. -/
def applyEvent : UiEvent → Dom → Dom
  | .alertFadeTimer i, dom => applyAlertFade i dom
  | .alertRemoveTimer i, dom => applyAlertRemove i dom
  | .formSubmitEvt fid, dom => applyFormSubmit fid dom
  | .deleteClickEvt _ _, dom => dom
  | .fileChangeEvt i files, dom => applyFileChange i files dom
  | .menuToggleEvt, dom => toggleMobileMenu dom

/-- The elements main.js ever mutates: alerts (style, removal), required
form fields (border color), and the sidebar (class toggle). -/
def scriptTouches (e : Element) : Bool :=
  hasClass e "alert" || e.required || hasClass e "sidebar"

/- ### Global export -/

/-- The namespace object assigned to `window.AEGIS`. -/
structure AEGISExports where
  toggleMobileMenu : Dom → Dom

/-- The `window` global, restricted to the property this script defines. -/
structure Window where
  AEGIS : Option AEGISExports

/-- Running the script body: `window.AEGIS = { toggleMobileMenu:
toggleMobileMenu }`. -/
def scriptLoad (w : Window) : Window :=
  { w with AEGIS := some { toggleMobileMenu := toggleMobileMenu } }

-- scratch tests
example : js_includes "/items/delete/3" "delete" = true := by decide
example : js_includes "/items/detail/3" "delete" = false := by decide
example : (jsTrim " " = "") := by decide
example : (jsTrim "  a b " = "a b") := by decide
example : (jsTrim "" = "") := by decide
example : toggleMobileMenu [{ classes := ["sidebar"] }] =
    [{ classes := ["sidebar", "mobile-open"] }] := by decide
example : (submitForm [{ required := true, value := " " }]).prevented = true := by
  decide
example : (submitForm [{ required := true, value := "x" }, { value := "" }]) =
    { fields := [{ required := true, value := "x",
                   styleBorderColor := some "#e5e7eb" }],
      prevented := false, alertShown := none } := by decide
example : clickElement { classes := ["btn-danger"], href := some "/x/delete/1" }
    false = { confirmShown := true, prevented := true } := by decide
example : clickElement { classes := ["btn-danger"], href := some "/x/edit/1" }
    true = { confirmShown := false, prevented := false } := by decide

/- ### Helper lemmas -/

lemma hasClass_iff (e : Element) (c : String) :
    hasClass e c = true ↔ c ∈ e.classes := by
  simp [hasClass, List.contains, List.elem_iff]

lemma fileChangeHandler_noop (files : List FileInfo) (input : Element)
    (dom : Dom) : fileChangeHandler files input dom = dom := by
  simp [fileChangeHandler]

lemma applyFileChange_noop (i : Nat) (files : List FileInfo) (dom : Dom) :
    applyFileChange i files dom = dom := by
  unfold applyFileChange
  cases dom.get? i with
  | none => rfl
  | some input => exact fileChangeHandler_noop files input dom

/- ### C8: the file-input change handler is a no-op -/

/-- C8: the change listener attached to file inputs makes no observable
modification: for every change event on any input, with any file list,
the document is returned unchanged. -/
theorem file_change_noop (files : List FileInfo) (input : Element)
    (dom : Dom) (i : Nat) :
    fileChangeHandler files input dom = dom ∧
    applyFileChange i files dom = dom :=
  ⟨fileChangeHandler_noop files input dom, applyFileChange_noop i files dom⟩

/- ### C5: the global export -/

/-- C5: after the script body has run, `window.AEGIS` is exactly one
namespace object, and it exposes the function `toggleMobileMenu`. -/
theorem window_AEGIS_export (w : Window) :
    (scriptLoad w).AEGIS = some { toggleMobileMenu := toggleMobileMenu } ∧
    ∃! ns : AEGISExports, (scriptLoad w).AEGIS = some ns := by
  refine ⟨rfl, { toggleMobileMenu := toggleMobileMenu }, rfl, ?_⟩
  intro ns hns
  exact (Option.some.inj hns).symm

/- ### C2: alert auto-hide schedule -/

/-- C2: for an alert present at `DOMContentLoaded` (time `t0`), the script
schedules the opacity fade at `t0 + 5000` ms and the removal 500 ms later,
so the alert leaves the DOM no later than 5.5 s after `t0`; the inner
timer callback really removes the alert element from the document and the
outer one applies the fade styles. -/
theorem alert_auto_hide_schedule (t0 : Nat) (e : Element) (rest : Dom)
    (halert : hasClass e "alert" = true) :
    (alertAutoHideTimeline t0).fadeStartAt = t0 + 5000 ∧
    (alertAutoHideTimeline t0).removedAt = (alertAutoHideTimeline t0).fadeStartAt + 500 ∧
    (alertAutoHideTimeline t0).removedAt ≤ t0 + 5500 ∧
    applyEvent (.alertFadeTimer 0) (e :: rest) = alertFadeStep e :: rest ∧
    applyEvent (.alertRemoveTimer 0) (e :: rest) = rest := by
  refine ⟨rfl, rfl, ?_, ?_, ?_⟩
  · show t0 + 5000 + 500 ≤ t0 + 5500
    omega
  · simp [applyEvent, applyAlertFade, halert]
  · simp [applyEvent, applyAlertRemove, halert]

/-- C2 witness: the schedule instantiated at load time `0` for a concrete
alert element. -/
theorem alert_auto_hide_schedule_witness :
    (alertAutoHideTimeline 0).fadeStartAt = 0 + 5000 ∧
    (alertAutoHideTimeline 0).removedAt = (alertAutoHideTimeline 0).fadeStartAt + 500 ∧
    (alertAutoHideTimeline 0).removedAt ≤ 0 + 5500 ∧
    applyEvent (.alertFadeTimer 0) [{ classes := ["alert"] }] =
      alertFadeStep { classes := ["alert"] } :: ([] : Dom) ∧
    applyEvent (.alertRemoveTimer 0) [{ classes := ["alert"] }] = ([] : Dom) :=
  alert_auto_hide_schedule 0 { classes := ["alert"] } [] (by decide)

/- ### C3: confirmation gate on delete links -/

/-- C3: clicking a `.btn-danger` element whose href contains `delete`
shows the confirmation dialog; the default action is prevented exactly
when the user does not confirm. -/
theorem delete_click_confirm_gate (e : Element) (h : String)
    (hclass : hasClass e "btn-danger" = true)
    (hhref : e.href = some h)
    (hdel : js_includes h "delete" = true) :
    clickElement e false = { confirmShown := true, prevented := true } ∧
    clickElement e true = { confirmShown := true, prevented := false } := by
  have hne : (h == "") = false := by
    cases hh : h == "" with
    | false => rfl
    | true =>
      have he : h = "" := by simpa using hh
      rw [he] at hdel
      exact absurd hdel (by decide)
  have hatt : deleteListenerAttached e = true := by
    simp [deleteListenerAttached, hclass, hhref, hne, hdel]
  exact ⟨by simp [clickElement, hatt], by simp [clickElement, hatt]⟩

/-- C3 witness: a concrete delete link. -/
theorem delete_click_confirm_gate_witness :
    clickElement { classes := ["btn-danger"], href := some "/items/delete/3" }
        false = { confirmShown := true, prevented := true } ∧
    clickElement { classes := ["btn-danger"], href := some "/items/delete/3" }
        true = { confirmShown := true, prevented := false } :=
  delete_click_confirm_gate _ "/items/delete/3" (by decide) rfl (by decide)

/- ### C7: no listener on non-delete buttons -/

/-- C7: a `.btn-danger` element with no href, or whose href does not
contain `delete`, gets no click listener: a click shows no dialog and is
never prevented by this script. -/
theorem non_delete_button_no_listener (e : Element)
    (_hclass : hasClass e "btn-danger" = true)
    (hno : e.href = none ∨ js_includes (e.href.getD "") "delete" = false) :
    deleteListenerAttached e = false ∧
    clickElement e true = { confirmShown := false, prevented := false } ∧
    clickElement e false = { confirmShown := false, prevented := false } := by
  have hatt : deleteListenerAttached e = false := by
    rcases hno with h1 | h2
    · simp [deleteListenerAttached, h1]
    · cases hh : e.href with
      | none => simp [deleteListenerAttached, hh]
      | some s =>
        rw [hh] at h2
        simp only [Option.getD_some] at h2
        simp [deleteListenerAttached, hh, h2]
  exact ⟨hatt, by simp [clickElement, hatt], by simp [clickElement, hatt]⟩

/-- C7 witness: a concrete edit link with the danger class. -/
theorem non_delete_button_no_listener_witness :
    deleteListenerAttached
        { classes := ["btn-danger"], href := some "/items/edit/3" } = false ∧
    clickElement { classes := ["btn-danger"], href := some "/items/edit/3" }
        true = { confirmShown := false, prevented := false } ∧
    clickElement { classes := ["btn-danger"], href := some "/items/edit/3" }
        false = { confirmShown := false, prevented := false } :=
  non_delete_button_no_listener _ (by decide) (Or.inr (by decide))

/- ### Form validation: characterizing the forEach loop -/

lemma foldl_validateStep (l : List Element) (acc : List Element) (b : Bool) :
    l.foldl validateStep (acc, b) =
      (acc ++ l.map styleRequiredField,
       b && l.all fun f => !(jsTrim f.value == "")) := by
  induction l generalizing acc b with
  | nil => simp
  | cons f t ih =>
    by_cases h : jsTrim f.value = ""
    · simp [validateStep, h, ih, styleRequiredField]
    · have h' : (jsTrim f.value == "") = false := by simpa using h
      simp [validateStep, h, h', ih, styleRequiredField]

lemma formSubmitHandler_eq (l : List Element) :
    formSubmitHandler l =
      (if l.all (fun f => !(jsTrim f.value == "")) then
        { fields := l.map styleRequiredField, prevented := false,
          alertShown := none }
      else
        { fields := l.map styleRequiredField, prevented := true,
          alertShown := some "Please fill in all required fields." }) := by
  unfold formSubmitHandler
  rw [foldl_validateStep]
  simp

lemma formSubmitHandler_fields (l : List Element) :
    (formSubmitHandler l).fields = l.map styleRequiredField := by
  rw [formSubmitHandler_eq]
  rcases hb : l.all fun f => !(jsTrim f.value == "") with _ | _ <;> simp [hb]

lemma formSubmitHandler_prevented (l : List Element) :
    (formSubmitHandler l).prevented =
      !(l.all fun f => !(jsTrim f.value == "")) := by
  rw [formSubmitHandler_eq]
  rcases hb : l.all fun f => !(jsTrim f.value == "") with _ | _ <;> simp [hb]

lemma formSubmitHandler_alert (l : List Element) :
    (formSubmitHandler l).alertShown =
      (if l.all (fun f => !(jsTrim f.value == "")) then none
       else some "Please fill in all required fields.") := by
  rw [formSubmitHandler_eq]
  rcases hb : l.all fun f => !(jsTrim f.value == "") with _ | _ <;> simp [hb]

/- ### C1: when submission is blocked -/

/-- C1 counterexample: a form whose only required field holds the value
`" "` — a non-empty string — is still blocked with the alert dialog, so
blocking is not equivalent to some required field being literally empty. -/
theorem submit_blocks_nonempty_value_counterexample :
    ((submitForm [{ required := true, value := " " }]).prevented,
     (submitForm [{ required := true, value := " " }]).alertShown,
     (" " == "")) =
    (true, some "Please fill in all required fields.", false) := by decide

/-- C1 (amended): on a submit event, the default is prevented and the
alert dialog "Please fill in all required fields." is shown if and only
if some required field of the form has a value that is empty after
trimming whitespace; otherwise neither happens. -/
theorem submit_blocks_iff_trimmed_empty (children : List Element) :
    ((submitForm children).prevented = true ↔
      ∃ f ∈ children, f.required = true ∧ jsTrim f.value = "") ∧
    ((submitForm children).alertShown =
        some "Please fill in all required fields." ↔
      ∃ f ∈ children, f.required = true ∧ jsTrim f.value = "") := by
  have key : ((requiredFieldsOf children).all
        fun f => !(jsTrim f.value == "")) = false ↔
      ∃ f ∈ children, f.required = true ∧ jsTrim f.value = "" := by
    constructor
    · intro hall
      rcases List.all_eq_false.mp hall with ⟨f, hf, hp⟩
      exact ⟨f, (List.mem_filter.mp hf).1,
        by simpa using (List.mem_filter.mp hf).2,
        by simpa using hp⟩
    · intro ⟨f, hfmem, hreq, hempty⟩
      rcases hall : (requiredFieldsOf children).all
          fun f => !(jsTrim f.value == "") with _ | _
      · rfl
      · exfalso
        have := List.all_eq_true.mp hall f
          (List.mem_filter.mpr ⟨hfmem, by simpa using hreq⟩)
        simp [hempty] at this
  constructor
  · rw [submitForm, formSubmitHandler_prevented]
    rcases hall : (requiredFieldsOf children).all
        fun f => !(jsTrim f.value == "") with _ | _
    · simpa using key.mp hall
    · simp only [Bool.not_true]
      constructor
      · intro hfalse; exact absurd hfalse (by decide)
      · intro hex
        exact absurd hall (by simp [key.mpr hex])
  · rw [submitForm, formSubmitHandler_alert]
    rcases hall : (requiredFieldsOf children).all
        fun f => !(jsTrim f.value == "") with _ | _
    · simpa using key.mp hall
    · simp only [if_true]
      constructor
      · intro hnone; exact absurd hnone (by simp)
      · intro hex
        exact absurd hall (by simp [key.mpr hex])

/- ### C4: border styling of required fields -/

/-- C4: on every submit event, blocked or not, each required field of the
form gets its border color set to `#ef4444` when its trimmed value is
empty (so whitespace-only counts as empty) and to `#e5e7eb` otherwise,
in document order. -/
theorem submit_styles_required_fields (children : List Element) :
    (submitForm children).fields =
      (children.filter (fun e => e.required)).map (fun field =>
        if jsTrim field.value = "" then
          { field with styleBorderColor := some "#ef4444" }
        else
          { field with styleBorderColor := some "#e5e7eb" }) := by
  rw [submitForm, formSubmitHandler_fields]
  rfl

/- ### C6: the mobile-menu toggle is an involution on the class state -/

/-- Two elements that agree on every property, with class lists equal as
sets (the observable state of a `DOMTokenList` with no duplicates). -/
def sameUpToClassPerm (a b : Element) : Prop :=
  a.classes.Perm b.classes ∧
    { a with classes := [] } = { b with classes := [] }

lemma sameUpToClassPerm_refl (a : Element) : sameUpToClassPerm a a :=
  ⟨List.Perm.refl _, rfl⟩

lemma mem_classListToggle_ne (c tok : String) (hne : c ≠ tok)
    (l : List String) : c ∈ classListToggle tok l ↔ c ∈ l := by
  unfold classListToggle
  split
  · simp [List.mem_filter, hne]
  · simp [hne]

lemma classListToggle_twice_perm (tok : String) (l : List String)
    (hnd : l.Nodup) : (classListToggle tok (classListToggle tok l)).Perm l := by
  by_cases hmem : tok ∈ l
  · have h1 : classListToggle tok l = l.filter (fun c => c != tok) := by
      simp [classListToggle, hmem]
    have h2 : tok ∉ l.filter (fun c => c != tok) := by
      simp [List.mem_filter]
    have h3 : classListToggle tok (l.filter fun c => c != tok) =
        l.filter (fun c => c != tok) ++ [tok] := by
      simp [classListToggle, h2]
    rw [h1, h3, ← hnd.erase_eq_filter]
    exact ((List.perm_append_comm).trans
      (List.perm_cons_erase hmem).symm)
  · have h1 : classListToggle tok l = l ++ [tok] := by
      simp [classListToggle, hmem]
    have h2 : tok ∈ l ++ [tok] := by simp
    have h3 : classListToggle tok (l ++ [tok]) =
        (l ++ [tok]).filter (fun c => c != tok) := by
      simp [classListToggle, h2]
    rw [h1, h3, List.filter_append]
    have h4 : l.filter (fun c => c != tok) = l :=
      List.filter_eq_self.mpr fun a ha => by
        simp only [bne_iff_ne, ne_eq, decide_eq_true_eq]
        exact fun hEq => hmem (hEq ▸ ha)
    have h5 : ([tok].filter fun c => c != tok) = [] := by simp
    rw [h4, h5, List.append_nil]

lemma hasClass_toggled_sidebar (e : Element)
    (h : hasClass e "sidebar" = true) :
    hasClass { e with classes := classListToggle "mobile-open" e.classes }
      "sidebar" = true := by
  rw [hasClass_iff] at h ⊢
  exact (mem_classListToggle_ne "sidebar" "mobile-open" (by decide) _).mpr h

lemma toggleMobileMenu_twice (dom : Dom) :
    (∀ e ∈ dom, e.classes.Nodup) →
      List.Forall₂ sameUpToClassPerm
        (toggleMobileMenu (toggleMobileMenu dom)) dom := by
  induction dom with
  | nil => intro _; exact List.Forall₂.nil
  | cons e rest ih =>
    intro hnd
    by_cases h : hasClass e "sidebar" = true
    · have h2 := hasClass_toggled_sidebar e h
      simp only [toggleMobileMenu, h, if_true, h2]
      refine List.Forall₂.cons ⟨?_, rfl⟩
        (List.forall₂_same.mpr fun x _ => sameUpToClassPerm_refl x)
      exact classListToggle_twice_perm "mobile-open" e.classes
        (hnd e (List.mem_cons_self e rest))
    · have h' : hasClass e "sidebar" = false := by simpa using h
      simp only [toggleMobileMenu, h', Bool.false_eq_true, if_false]
      exact List.Forall₂.cons (sameUpToClassPerm_refl e)
        (ih fun x hx => hnd x (List.mem_cons_of_mem e hx))

lemma toggleMobileMenu_no_sidebar (dom : Dom)
    (hall : dom.all (fun e => !hasClass e "sidebar") = true) :
    toggleMobileMenu dom = dom := by
  induction dom with
  | nil => rfl
  | cons e rest ih =>
    simp only [List.all_cons, Bool.and_eq_true] at hall
    have he : hasClass e "sidebar" = false := by simpa using hall.1
    simp [toggleMobileMenu, he, ih hall.2]

/-- C6: calling `toggleMobileMenu` twice restores the class state of
every element (the first `.sidebar` element gets `mobile-open` toggled
twice, which is the identity on a duplicate-free class list viewed as a
set, and nothing else changes); when no `.sidebar` element exists the
call leaves the document unchanged. -/
theorem toggleMobileMenu_involution (dom : Dom)
    (hnd : ∀ e ∈ dom, e.classes.Nodup) :
    List.Forall₂ sameUpToClassPerm
      (toggleMobileMenu (toggleMobileMenu dom)) dom ∧
    (dom.all (fun e => !hasClass e "sidebar") = true →
      toggleMobileMenu dom = dom) :=
  ⟨toggleMobileMenu_twice dom hnd, toggleMobileMenu_no_sidebar dom⟩

/-- C6 witness: a concrete document with a sidebar and an alert. -/
theorem toggleMobileMenu_involution_witness :
    List.Forall₂ sameUpToClassPerm
      (toggleMobileMenu (toggleMobileMenu
        [{ classes := ["sidebar"] }, { classes := ["alert"] }]))
      [{ classes := ["sidebar"] }, { classes := ["alert"] }] ∧
    ([{ classes := ["sidebar"] }, { classes := ["alert"] }].all
        (fun e => !hasClass e "sidebar") = true →
      toggleMobileMenu [{ classes := ["sidebar"] }, { classes := ["alert"] }] =
        [{ classes := ["sidebar"] }, { classes := ["alert"] }]) :=
  toggleMobileMenu_involution
    [{ classes := ["sidebar"] }, { classes := ["alert"] }] (by decide)

/- ### C9: frame property of the whole script -/

lemma scriptTouches_alertFadeStep (e : Element) :
    scriptTouches (alertFadeStep e) = scriptTouches e := rfl

lemma scriptTouches_styleRequiredField (e : Element) :
    scriptTouches (styleRequiredField e) = scriptTouches e := by
  unfold styleRequiredField
  split <;> rfl

lemma filter_untouched_alertFade (i : Nat) (dom : Dom) :
    (applyAlertFade i dom).filter (fun e => !scriptTouches e) =
      dom.filter (fun e => !scriptTouches e) := by
  induction dom generalizing i with
  | nil => cases i <;> rfl
  | cons e rest ih =>
    cases i with
    | zero =>
      by_cases h : hasClass e "alert" = true
      · have h1 : scriptTouches e = true := by simp [scriptTouches, h]
        have h2 : scriptTouches (alertFadeStep e) = true := by
          rw [scriptTouches_alertFadeStep]; exact h1
        simp [applyAlertFade, h, List.filter_cons, h1, h2]
      · have h' : hasClass e "alert" = false := by simpa using h
        simp [applyAlertFade, h']
    | succ n =>
      simp only [applyAlertFade, List.filter_cons, ih n]

lemma filter_untouched_alertRemove (i : Nat) (dom : Dom) :
    (applyAlertRemove i dom).filter (fun e => !scriptTouches e) =
      dom.filter (fun e => !scriptTouches e) := by
  induction dom generalizing i with
  | nil => cases i <;> rfl
  | cons e rest ih =>
    cases i with
    | zero =>
      by_cases h : hasClass e "alert" = true
      · have h1 : scriptTouches e = true := by simp [scriptTouches, h]
        simp [applyAlertRemove, h, List.filter_cons, h1]
      · have h' : hasClass e "alert" = false := by simpa using h
        simp [applyAlertRemove, h']
    | succ n =>
      simp only [applyAlertRemove, List.filter_cons, ih n]

lemma filter_untouched_formSubmit (fid : Nat) (dom : Dom) :
    (applyFormSubmit fid dom).filter (fun e => !scriptTouches e) =
      dom.filter (fun e => !scriptTouches e) := by
  induction dom with
  | nil => rfl
  | cons e rest ih =>
    by_cases h : (e.formId == some fid && e.required) = true
    · have hreq : e.required = true := by
        simp only [Bool.and_eq_true] at h
        exact h.2
      have h1 : scriptTouches e = true := by simp [scriptTouches, hreq]
      have h2 : scriptTouches (styleRequiredField e) = true := by
        rw [scriptTouches_styleRequiredField]; exact h1
      simp only [applyFormSubmit, List.map_cons]
      rw [if_pos h, List.filter_cons, List.filter_cons, h1, h2]
      simp only [Bool.not_true, Bool.false_eq_true, if_false]
      simpa only [applyFormSubmit] using ih
    · simp only [applyFormSubmit, List.map_cons]
      rw [if_neg h, List.filter_cons, List.filter_cons]
      have ih' := ih
      simp only [applyFormSubmit] at ih'
      rw [ih']

lemma filter_untouched_toggle (dom : Dom) :
    (toggleMobileMenu dom).filter (fun e => !scriptTouches e) =
      dom.filter (fun e => !scriptTouches e) := by
  induction dom with
  | nil => rfl
  | cons e rest ih =>
    by_cases h : hasClass e "sidebar" = true
    · have h1 : scriptTouches e = true := by simp [scriptTouches, h]
      have h2 : scriptTouches
          { e with classes := classListToggle "mobile-open" e.classes } =
            true := by
        simp [scriptTouches, hasClass_toggled_sidebar e h]
      simp [toggleMobileMenu, h, List.filter_cons, h1, h2]
    · have h' : hasClass e "sidebar" = false := by simpa using h
      simp [toggleMobileMenu, h', List.filter_cons, ih]

/-- C9: no handler of the script mutates or removes any element outside
the classes it owns: the sublist of elements that are neither alerts, nor
required form fields, nor the sidebar survives every event unchanged and
in order.  (Delete buttons and file inputs are read but never mutated,
so they need not be excluded.) -/
theorem script_frame (ev : UiEvent) (dom : Dom) :
    (applyEvent ev dom).filter (fun e => !scriptTouches e) =
      dom.filter (fun e => !scriptTouches e) := by
  cases ev with
  | alertFadeTimer i => exact filter_untouched_alertFade i dom
  | alertRemoveTimer i => exact filter_untouched_alertRemove i dom
  | formSubmitEvt fid => exact filter_untouched_formSubmit fid dom
  | deleteClickEvt i b => rfl
  | fileChangeEvt i files =>
    show (applyFileChange i files dom).filter (fun e => !scriptTouches e) = _
    rw [applyFileChange_noop]
  | menuToggleEvt => exact filter_untouched_toggle dom
